import Mathlib

/-!
# Verification of the bulk form-submission engine (eloqua-admin-toolbox)

Shallow embedding of `src/tools/FormBulkSubmitTool.ts` and
`src/shared/validation.ts`: the CSV ingestion and sanitization pipeline, the
row submission unit, the bulk submission orchestrator, the summary
aggregator, and the validation (dry-run) branch of `execute`.

Modelling conventions:
* JS strings are Lean `String`s; JS numbers used for counting, sizes and
  durations are `Nat`; JS floating-point arithmetic in the summary
  aggregator is modelled over exact rationals `ℚ` (with `Math.round x`
  modelled as `⌊x + 1/2⌋`, which is its documented behaviour).  The only
  divergence is `0/0`: JS produces `NaN`, `ℚ` produces `0`; this is called
  out where relevant (`calculateSummary` on an empty list).
* A `Row` (a JS object `Record<string, string>`) is an insertion-ordered
  association list.  Object assignment `row[k] = v` is `objSet`, which
  updates in place or appends.
* The HTTP transport (`fetch`) is an oracle: each row submission is given a
  `FetchBehavior` describing what the network does (completes after some
  duration with a status and body, fails after some duration with an error
  name and message, or never resolves).  The timer+`AbortController` pair of
  `processRow` is `fetchWithAbort`, which turns a behaviour that outlives
  the timeout into an `AbortError`, exactly as the source's
  `setTimeout(() => controller.abort(), timeout * 1000)` does.
* Asynchronous completion order within a batch is modelled by an arbitrary
  reordering function applied to each batch's write list (constrained to be
  a permutation); `Promise.allSettled` plus the indexed writes
  `results[rowIndex] = ...` make the final buffer order-independent, which
  is exactly what the order-invariant theorem proves.
-/

/-! ## JS string primitives used by the source -/

/-- JS `String.prototype.trim` whitespace test (ASCII part: space, tab,
newline, carriage return, vertical tab, form feed). -/
def jsIsWs (c : Char) : Bool :=
  c = ' ' || c = '\t' || c = '\n' || c = '\r' || c = '\x0b' || c = '\x0c'

/-- JS `String.prototype.trim`. -/
def jsTrim (s : String) : String :=
  ⟨(s.data.dropWhile jsIsWs).reverse.dropWhile jsIsWs |>.reverse⟩

/-- One step of JS `str.replace(pattern, rep)` for a plain-string pattern:
replace the first occurrence only.  (`$`-substitution in the replacement is
not modelled; the only use site replaces `{siteId}` by a site identifier
that the tool validates against `^\d+$`.) -/
def replaceOnceGo (pat rep : List Char) : List Char → List Char
  | [] => []
  | c :: rest =>
    if pat.isPrefixOf (c :: rest) then rep ++ (c :: rest).drop pat.length
    else c :: replaceOnceGo pat rep rest

/-- JS `s.replace(pat, rep)` with a string (non-regex) pattern. -/
def jsReplaceOnce (s pat rep : String) : String :=
  ⟨replaceOnceGo pat.data rep.data s.data⟩

/-- Replace every occurrence of the character `target` by `rep`
(JS `s.replace(/target/g, rep)` for a single-character pattern). -/
def replaceChar (target : Char) (rep : List Char) : List Char → List Char
  | [] => []
  | c :: rest => (if c = target then rep else [c]) ++ replaceChar target rep rest

/-- JS `s.split(sep)` for a single-character separator (the source only
splits on `'\n'` and `','`): every separator occurrence ends a field, and
the final accumulator is always emitted, so `"".split(',') = [""]` and a
trailing separator produces a trailing empty field, as in JS. -/
def jsSplitGo (sep : Char) : List Char → List Char → List String
  | [], cur => [String.mk cur]
  | c :: rest, cur =>
    if c = sep then String.mk cur :: jsSplitGo sep rest []
    else jsSplitGo sep rest (cur ++ [c])

def jsSplitChar (s : String) (sep : Char) : List String :=
  jsSplitGo sep s.data []

/-- JS `Array.prototype.join(sep)`. -/
def joinSep (sep : String) : List String → String
  | [] => ""
  | [x] => x
  | x :: xs => x ++ sep ++ joinSep sep xs

/-- JS `String.prototype.startsWith` for a plain-string search value. -/
def strStartsWith (s p : String) : Bool := p.data.isPrefixOf s.data

/-- JS `String.prototype.endsWith` for a plain-string search value. -/
def strEndsWith (s p : String) : Bool := p.data.reverse.isPrefixOf s.data.reverse

/-- JS `String.prototype.includes` for a single character. -/
def strContainsChar (s : String) (c : Char) : Bool := s.data.contains c

/-- Drop a single leading double-quote if present (JS `replace(/^"/, '')`). -/
def dropLeadQuote (s : String) : String :=
  match s.data with
  | '\"' :: rest => ⟨rest⟩
  | _ => s

/-- Drop a single trailing double-quote if present (JS `replace(/"$/, '')`). -/
def dropTrailQuote (s : String) : String :=
  match s.data.reverse with
  | '\"' :: rest => ⟨rest.reverse⟩
  | _ => s

/-! ## `InputValidator.sanitizeHtml` (validation.ts, lines 184-198) -/

/-- Consume characters after a `<` up to and including the first `>`;
`none` when no `>` follows (then the regex `<[^>]*>` cannot match). -/
def dropTag : List Char → Option (List Char)
  | [] => none
  | '>' :: rest => some rest
  | _ :: rest => dropTag rest

/-- Global replacement of `/<[^>]*>/g` by the empty string, fuelled by the
input length (one fuel unit per character consumed, so `length` fuel always
suffices). -/
def removeHtmlTagsF : Nat → List Char → List Char
  | 0, l => l
  | _, [] => []
  | fuel + 1, c :: rest =>
    if c = '<' then
      match dropTag rest with
      | some rem => removeHtmlTagsF fuel rem
      | none => c :: removeHtmlTagsF fuel rest
    else c :: removeHtmlTagsF fuel rest

def removeHtmlTags (s : String) : String :=
  ⟨removeHtmlTagsF s.data.length s.data⟩

/-- Case-insensitive character comparison (the regex `i` flag). -/
def ciEq (a b : Char) : Bool := a.toLower = b.toLower

/-- Case-insensitive prefix test of `pat` against `l`. -/
def ciIsPrefix : List Char → List Char → Bool
  | [], _ => true
  | _ :: _, [] => false
  | p :: ps, c :: cs => ciEq p c && ciIsPrefix ps cs

/-- The lazy `.*?<\/script>` part of the script regex: find the shortest
non-newline-crossing stretch followed by `</script>` (case-insensitive) and
return the remainder after it; `.` does not match a newline, so a newline
before the closing tag makes the whole attempt fail. -/
def findScriptClose : List Char → Option (List Char)
  | [] => none
  | c :: rest =>
    if ciIsPrefix "</script>".data (c :: rest) then some ((c :: rest).drop 9)
    else if c = '\n' then none
    else findScriptClose rest

/-- Attempt to match `/<script[^>]*>.*?<\/script>/i` at the head of `l`,
returning the remainder after the match. -/
def scriptMatchEnd (l : List Char) : Option (List Char) :=
  if ciIsPrefix "<script".data l then
    match dropTag (l.drop 7) with
    | none => none
    | some rest2 => findScriptClose rest2
  else none

/-- Global replacement of `/<script[^>]*>.*?<\/script>/gi` by the empty
string, fuelled by the input length. -/
def removeScriptTagsF : Nat → List Char → List Char
  | 0, l => l
  | _, [] => []
  | fuel + 1, c :: rest =>
    match scriptMatchEnd (c :: rest) with
    | some rem => removeScriptTagsF fuel rem
    | none => c :: removeScriptTagsF fuel rest

def removeScriptTags (s : String) : String :=
  ⟨removeScriptTagsF s.data.length s.data⟩

/-- `InputValidator.sanitizeHtml`: strip script tags, strip all HTML tags,
then escape `&`, `<`, `>`, `"`, `'`, `/` (in that order; each replacement's
output contains none of the later targets, so sequential application is as
in the source). -/
def sanitizeHtml (input : String) : String :=
  let l := (removeHtmlTags (removeScriptTags input)).data
  let l := replaceChar '&' "&amp;".data l
  let l := replaceChar '<' "&lt;".data l
  let l := replaceChar '>' "&gt;".data l
  let l := replaceChar '\"' "&quot;".data l
  let l := replaceChar '\x27' "&#x27;".data l
  let l := replaceChar '/' "&#x2F;".data l
  ⟨l⟩

/-! ## `URLSearchParams` serialization (application/x-www-form-urlencoded) -/

def hexUpper (n : Nat) : Char :=
  if n < 10 then Char.ofNat (48 + n) else Char.ofNat (55 + n)

/-- UTF-8 bytes of a character (standard 1-4 byte encoding). -/
def utf8BytesOfChar (c : Char) : List Nat :=
  let n := c.toNat
  if n < 0x80 then [n]
  else if n < 0x800 then [0xC0 + n / 0x40, 0x80 + n % 0x40]
  else if n < 0x10000 then
    [0xE0 + n / 0x1000, 0x80 + (n / 0x40) % 0x40, 0x80 + n % 0x40]
  else
    [0xF0 + n / 0x40000, 0x80 + (n / 0x1000) % 0x40,
     0x80 + (n / 0x40) % 0x40, 0x80 + n % 0x40]

/-- Characters `URLSearchParams` leaves unencoded: ASCII alphanumerics and
`*`, `-`, `.`, `_`. -/
def isFormSafeChar (c : Char) : Bool :=
  c.isAlphanum || c = '*' || c = '-' || c = '.' || c = '_'

/-- Encoding of one character: space becomes `+`, safe characters pass
through, everything else is percent-encoded per UTF-8 byte. -/
def formEncodeChar (c : Char) : String :=
  if c = ' ' then "+"
  else if isFormSafeChar c then String.singleton c
  else String.join ((utf8BytesOfChar c).map
    (fun b => String.mk ['%', hexUpper (b / 16), hexUpper (b % 16)]))

def formEncode (s : String) : String :=
  String.join (s.data.map formEncodeChar)

/-- `URLSearchParams.toString()` over an insertion-ordered pair list. -/
def urlSearchParamsToString (params : List (String × String)) : String :=
  String.intercalate "&" (params.map (fun p => formEncode p.1 ++ "=" ++ formEncode p.2))

/-! ## Row submission unit (FormBulkSubmitTool.ts, lines 387-560) -/

/-- A parsed CSV row: a JS `Record<string, string>` as an insertion-ordered
association list. -/
abbrev Row := List (String × String)

/-- JS object assignment `row[k] = v`: update the value in place if the key
exists, otherwise append (JS objects preserve insertion order for string
keys). -/
def objSet : Row → String → String → Row
  | [], k, v => [(k, v)]
  | (k0, v0) :: rest, k, v =>
    if k0 = k then (k0, v) :: rest else (k0, v0) :: objSet rest k v

/-- `private readonly ELOQUA_BASE_URL` (line 105). -/
def ELOQUA_BASE_URL : String := "https://s{siteId}.t.eloqua.com/e/f2"

/-- `buildEloquaUrl` (lines 419-433): substitute the site id into the base
URL and append `elqFormName`, `elqSiteID` and then all row pairs as a query
string.  `rowNumber` is accepted and unused, exactly as in the source. -/
def buildEloquaUrl (siteId elqFormName : String) (csvData : Row) (rowNumber : Nat) : String :=
  let baseUrl := jsReplaceOnce ELOQUA_BASE_URL "{siteId}" siteId
  let params := [("elqFormName", elqFormName), ("elqSiteID", siteId)] ++ csvData
  let _ := rowNumber
  baseUrl ++ "?" ++ urlSearchParamsToString params

/-- What the network does for one `fetch` call, before the abort timer is
taken into account. -/
inductive FetchBehavior
  | completes (durationMs : Nat) (status : Nat) (body : String)
  | failsWith (durationMs : Nat) (name msg : String)
  | neverResolves
deriving DecidableEq, Repr

/-- Result of an awaited `fetch` wrapped with the abort timer. -/
inductive FetchOutcome
  | ok (status : Nat) (body : String) (elapsedMs : Nat)
  | err (name msg : String) (elapsedMs : Nat)
deriving DecidableEq, Repr

/-- The `AbortController` + `setTimeout(..., timeout * 1000)` pair of
`processRow` (lines 508-519): an operation that would outlast the timer is
aborted (JS fires the abort with error name `AbortError`); otherwise the
underlying behaviour's result is returned. -/
def fetchWithAbort : FetchBehavior → Nat → FetchOutcome
  | .completes dur status body, t =>
    if t * 1000 < dur then .err "AbortError" "The operation was aborted" (t * 1000)
    else .ok status body dur
  | .failsWith dur name msg, t =>
    if t * 1000 < dur then .err "AbortError" "The operation was aborted" (t * 1000)
    else .err name msg dur
  | .neverResolves, t => .err "AbortError" "The operation was aborted" (t * 1000)

/-- Does the behaviour exceed the row timeout (so that the abort timer
fires first)? -/
def timesOut : FetchBehavior → Nat → Bool
  | .completes dur _ _, t => decide (t * 1000 < dur)
  | .failsWith dur _ _, t => decide (t * 1000 < dur)
  | .neverResolves, _ => true

/-- The `ProcessedRow` interface (lines 82-92). -/
structure ProcessedRow where
  rowNumber : Nat
  success : Bool
  statusCode : Option Nat
  processingTime : Nat
  url : Option String
  parametersCount : Nat
  responseSize : Option Nat
  error : Option String
  data : Option Row
deriving DecidableEq, Repr

/-- `processRow` (lines 495-560).  The source never throws: the whole body
is a `try` whose `catch` converts any transport error into a failed
outcome; the embedding is correspondingly a total function.  On completion
the remote status code is recorded and `success` is `true` regardless of
its value; on transport failure `success` is `false`, `statusCode` stays
unset, and an `AbortError` is reported as `"Request timeout"`. -/
def processRow (rowData : Row) (siteId elqFormName : String) (rowNumber : Nat)
    (timeout : Nat) (behavior : FetchBehavior) : ProcessedRow :=
  let targetUrl := buildEloquaUrl siteId elqFormName rowData rowNumber
  match fetchWithAbort behavior timeout with
  | .ok status body elapsed =>
    { rowNumber := rowNumber
      success := true
      statusCode := some status
      processingTime := elapsed
      url := some targetUrl
      parametersCount := rowData.length
      responseSize := some body.length
      error := none
      data := some rowData }
  | .err name msg elapsed =>
    { rowNumber := rowNumber
      success := false
      statusCode := none
      processingTime := elapsed
      url := none
      parametersCount := rowData.length
      responseSize := none
      error := some (if name = "AbortError" then "Request timeout" else "Network error: " ++ msg)
      data := some rowData }

/-- The single HTTP request issued by `processRow` (lines 511-519): method,
target URL, headers, and the body `new URLSearchParams(rowData)` -- the
body carries the row's pairs only; the two control parameters are part of
`targetUrl`'s query string, placed there by `buildEloquaUrl`. -/
structure FormPostRequest where
  method : String
  url : String
  contentType : String
  userAgent : String
  bodyParams : List (String × String)
deriving DecidableEq, Repr

def buildRequest (rowData : Row) (siteId elqFormName : String) (rowNumber : Nat) :
    FormPostRequest :=
  { method := "POST"
    url := buildEloquaUrl siteId elqFormName rowData rowNumber
    contentType := "application/x-www-form-urlencoded"
    userAgent := "EloquaAdminToolbox-BulkSubmit/1.0"
    bodyParams := rowData }

/-! ## Summary aggregator (lines 562-577) -/

/-- JS `Math.round`: nearest integer, ties toward positive infinity. -/
def jsRound (x : ℚ) : Int := ⌊x + 1 / 2⌋

/-- The `BulkSubmitSummary` interface (lines 94-102); the rate and average
fields are JS numbers, modelled as exact rationals. -/
structure BulkSubmitSummary where
  totalRows : Nat
  successfulRequests : Nat
  failedRequests : Nat
  successRate : ℚ
  totalProcessingTime : Nat
  averageProcessingTime : ℚ
  averageResponseTime : ℚ
deriving DecidableEq, Repr

/-- `calculateSummary` (lines 562-577).  No emptiness guard exists in the
source: on an empty list JS computes `0/0 = NaN` for the rate and average
fields and still returns a summary object; over `ℚ` the convention `0/0 = 0`
applies instead -- in both semantics a summary is returned and nothing is
thrown. -/
def calculateSummary (results : List ProcessedRow) : BulkSubmitSummary :=
  let successfulRequests := (results.filter (fun r => r.success)).length
  let failedRequests := results.length - successfulRequests
  let totalProcessingTime : Nat := (results.map (fun r => r.processingTime)).sum
  let averageProcessingTime : ℚ := (totalProcessingTime : ℚ) / (results.length : ℚ)
  { totalRows := results.length
    successfulRequests := successfulRequests
    failedRequests := failedRequests
    successRate := (jsRound ((successfulRequests : ℚ) / (results.length : ℚ) * 100 * 10) : ℚ) / 10
    totalProcessingTime := totalProcessingTime
    averageProcessingTime := (jsRound (averageProcessingTime * 10) : ℚ) / 10
    averageResponseTime := (jsRound (averageProcessingTime * 10) : ℚ) / 10 }

/-! ## Bulk submission orchestrator (lines 435-493)

The loop `for (let i = 0; i < csvRows.length; i += maxConcurrentRequests)`
is embedded with an explicit fuel argument; each iteration handles at least
one row when the batch size is positive, so `n` units of fuel always
suffice (`bulkBatchesGo_join` below depends only on that bound). -/

/-- The index sets of the successive batches:
`csvRows.slice(i, i + maxConcurrentRequests)` tagged with original indices
(lines 479-482). -/
def bulkBatchesGo (n size : Nat) : Nat → Nat → List (List Nat)
  | 0, _ => []
  | fuel + 1, i =>
    if i < n then List.range' i (min size (n - i)) :: bulkBatchesGo n size fuel (i + size)
    else []

def bulkBatches (n size : Nat) : List (List Nat) := bulkBatchesGo n size n 0

/-- An observable scheduling step of the orchestrator: starting the
submission of a row, or suspending for a delay. -/
inductive SchedStep
  | submit (rowIndex : Nat)
  | delayMs (ms : Nat)
deriving DecidableEq, Repr

/-- The scheduling trace of `processBulkSubmissions` (lines 479-490): per
batch, all submissions are started back-to-back by
`batch.map(({row, index}) => this.processRow(...))`; afterwards, if
`delayBetweenRequests > 0` and more rows remain
(`i + maxConcurrentRequests < csvRows.length`), a single delay step runs
before the next batch. -/
def bulkTraceGo (n size delay : Nat) : Nat → Nat → List SchedStep
  | 0, _ => []
  | fuel + 1, i =>
    if i < n then
      (List.range' i (min size (n - i))).map SchedStep.submit
        ++ (if 0 < delay ∧ i + size < n then [SchedStep.delayMs delay] else [])
        ++ bulkTraceGo n size delay fuel (i + size)
    else []

def bulkTrace (n size delay : Nat) : List SchedStep := bulkTraceGo n size delay n 0

/-- Spec-side description of the schedule: per batch, the submissions run
consecutively with no delay step between them; one single delay step
separates consecutive batches when the configured delay is positive.  The
orchestrator-trace theorem proves the source loop produces exactly this. -/
def interBatchTrace (delay : Nat) : List (List Nat) → List SchedStep
  | [] => []
  | [b] => b.map SchedStep.submit
  | b :: rest =>
    b.map SchedStep.submit ++ (if 0 < delay then [SchedStep.delayMs delay] else [])
      ++ interBatchTrace delay rest

/-- The claim "every row after the first within its batch is preceded by a
no-op delay step of the configured delay", as a decidable check over the
trace: a submitted index `j` with `j % size ≠ 0` is not the first of its
batch and must be immediately preceded by `delayMs delay`. -/
def staggerClaimHolds (n size delay : Nat) : Bool :=
  let t := bulkTrace n size delay
  (List.range t.length).all (fun p =>
    match t.get? p with
    | some (SchedStep.submit j) =>
      if j % size = 0 then true
      else
        match p with
        | 0 => false
        | q + 1 =>
          match t.get? q with
          | some (SchedStep.delayMs d) => d == delay
          | _ => false
    | _ => true)

/-- The write performed for one settled promise:
`results[rowIndex] = result.value` (line 462) on the result buffer. -/
def writeOutcome (buf : Nat → Option ProcessedRow) (p : Nat × ProcessedRow) :
    Nat → Option ProcessedRow :=
  fun k => if k = p.1 then some p.2 else buf k

/-- The outcome computed for original row index `idx`:
`this.processRow(row, siteId, elqFormName, index + 1, options.requestTimeout)`
(line 453), driven by the transport oracle. -/
def outcomeAt (rows : List Row) (siteId elqFormName : String) (timeout : Nat)
    (behavior : Nat → FetchBehavior) (idx : Nat) : ProcessedRow :=
  processRow (rows.getD idx []) siteId elqFormName (idx + 1) timeout (behavior idx)

/-- One batch's list of indexed writes, in submission order. -/
def batchWrites (rows : List Row) (siteId elqFormName : String) (timeout : Nat)
    (behavior : Nat → FetchBehavior) (b : List Nat) : List (Nat × ProcessedRow) :=
  b.map (fun idx => (idx, outcomeAt rows siteId elqFormName timeout behavior idx))

/-- `processBulkSubmissions` (lines 446-493) as a result buffer: fold the
batches in order; within a batch, apply `reorder` -- an arbitrary
completion-order permutation of the settled writes -- before folding them
into the buffer.  `Promise.allSettled` resolves only after every promise of
the batch settles, so any interleaving of a batch's writes is some
permutation of its write list; the order-invariant theorem quantifies over
`reorder`. -/
def runBulkBuf (rows : List Row) (siteId elqFormName : String) (timeout : Nat)
    (behavior : Nat → FetchBehavior) (size : Nat)
    (reorder : List (Nat × ProcessedRow) → List (Nat × ProcessedRow)) :
    Nat → Option ProcessedRow :=
  (bulkBatches rows.length size).foldl
    (fun buf b => ((reorder (batchWrites rows siteId elqFormName timeout behavior b)).foldl
      writeOutcome buf))
    (fun _ => none)

/-! ## CSV line parser (lines 387-417) -/

/-- The character loop of `parseCsvLine`: `cur` is the `current`
accumulator, `inQ` the `inQuotes` flag.  A doubled quote inside quotes
emits one quote; any other quote toggles the flag; a comma outside quotes
ends the field; the final field is always pushed. -/
def parseCsvLineGo : List Char → List Char → Bool → List String
  | [], cur, _ => [String.mk cur]
  | '\"' :: '\"' :: rest2, cur, true => parseCsvLineGo rest2 (cur ++ ['\"']) true
  | '\"' :: rest, cur, true => parseCsvLineGo rest cur false
  | '\"' :: rest, cur, false => parseCsvLineGo rest cur true
  | ',' :: rest, cur, false => String.mk cur :: parseCsvLineGo rest [] false
  | c :: rest, cur, inQ => parseCsvLineGo rest (cur ++ [c]) inQ

def parseCsvLine (line : String) : List String :=
  parseCsvLineGo line.data [] false

/-! ## `InputValidator.validateCsvData` (validation.ts, lines 237-312) -/

structure ValidationResult where
  isValid : Bool
  errors : List String
  sanitizedValue : Option String
deriving DecidableEq, Repr

/-- The formula-injection test applied to each naive (`split(',')`) cell:
trim, strip one leading and one trailing double-quote, then test the first
character against `=`, `@`, `+`, `-` (lines 265-271). -/
def isDangerousCell (cell : String) : Bool :=
  let c := dropTrailQuote (dropLeadQuote (jsTrim cell))
  strStartsWith c "=" || strStartsWith c "@" || strStartsWith c "+" || strStartsWith c "-"

/-- The per-cell sanitization of lines 280-302: trim, unwrap a fully quoted
cell, prefix a dangerous cell with a neutralizing single quote, HTML
sanitize, and re-quote if the result contains a comma, quote or newline. -/
def sanitizeCsvCell (cell : String) : String :=
  let c0 := jsTrim cell
  let c1 :=
    if strStartsWith c0 "\"" && strEndsWith c0 "\"" then ⟨(c0.data.drop 1).dropLast⟩ else c0
  let c2 :=
    if strStartsWith c1 "=" || strStartsWith c1 "@" || strStartsWith c1 "+" ||
        strStartsWith c1 "-" then
      "\x27" ++ c1
    else c1
  let c3 := sanitizeHtml c2
  if strContainsChar c3 ',' || strContainsChar c3 '\"' || strContainsChar c3 '\n' then
    "\"" ++ String.mk (replaceChar '\"' ['\"', '\"'] c3.data) ++ "\""
  else c3

/-- `InputValidator.validateCsvData`.  Note that a dangerous cell pushes
the error `"CSV contains potentially dangerous formulas"` (making
`isValid` false) AND is neutralized in `sanitizedValue`; the caller
(`parseCsvData`) treats `isValid = false` as fatal, so the sanitized value
is discarded whenever a neutralization actually happened. -/
def validateCsvData (csvData : String) : ValidationResult :=
  if csvData = "" then { isValid := false, errors := ["CSV data is required"], sanitizedValue := none }
  else
    let trimmedData := jsTrim csvData
    if trimmedData.length = 0 then
      { isValid := false, errors := ["CSV data cannot be empty"], sanitizedValue := none }
    else
      let sizeErrors := if 10 * 1024 * 1024 < trimmedData.length then ["CSV data is too large"] else []
      let lines := jsSplitChar trimmedData '\n'
      let structureErrors :=
        if lines.length < 2 then ["CSV must contain at least a header row and one data row"] else []
      let dangerous := lines.any (fun line => (jsSplitChar line ',').any isDangerousCell)
      let formulaErrors := if dangerous then ["CSV contains potentially dangerous formulas"] else []
      let errors := sizeErrors ++ structureErrors ++ formulaErrors
      let sanitized := joinSep "\n"
        (lines.map (fun line => joinSep "," ((jsSplitChar line ',').map sanitizeCsvCell)))
      { isValid := errors.isEmpty, errors := errors, sanitizedValue := some sanitized }

/-! ## `parseCsvData` (FormBulkSubmitTool.ts, lines 328-385) -/

/-- Build one row object: zip values against headers positionally, keeping
only headers whose (pre-sanitization) trimmed value is non-empty; each kept
value is HTML-sanitized (lines 368-376). -/
def buildRow (headers values : List String) : Row :=
  (List.range headers.length).foldl
    (fun row j =>
      let value := values.getD j ""
      if jsTrim value ≠ "" then objSet row (headers.getD j "") (sanitizeHtml (jsTrim value))
      else row)
    []

/-- `parseCsvData`: throwing is modelled by `Except.error` carrying the
thrown message.  Validation failure is fatal (`throw new Error(...)`, line
337); blank lines and rows with zero populated fields are skipped. -/
def parseCsvData (csvData : String) : Except String (List Row) :=
  if jsTrim csvData = "" then .error "CSV data is empty"
  else
    let v := validateCsvData csvData
    if v.isValid = false then
      .error ("CSV validation failed: " ++ joinSep ", " v.errors)
    else
      let sanitizedCsvData := v.sanitizedValue.getD ""
      let lines := jsSplitChar (jsTrim sanitizedCsvData) '\n'
      if lines.length < 2 then .error "CSV must have at least a header row and one data row"
      else
        let headers := parseCsvLine (lines.headD "")
        if headers.length = 0 then .error "CSV must have column headers"
        else
          .ok ((lines.drop 1).foldl
            (fun rows lineRaw =>
              let lineData := jsTrim lineRaw
              if lineData = "" then rows
              else
                let values := parseCsvLine lineData
                let row := buildRow headers values
                if row.length = 0 then rows else rows ++ [row])
            [])

/-- Does some line of the (trimmed) CSV text contain a cell that the
formula-injection test of `validateCsvData` flags?  (Exactly the
`lines.some(...)` expression of validation.ts, lines 265-271.) -/
def hasDangerousCsvCell (csvData : String) : Bool :=
  (jsSplitChar (jsTrim csvData) '\n').any
    (fun line => (jsSplitChar line ',').any isDangerousCell)

/-- Projection: the thrown message of a failed parse, `none` on success. -/
def parseErrMsg : Except String (List Row) → Option String
  | .error m => some m
  | .ok _ => none

/-- Projection: the parsed rows of a successful parse, `none` on failure. -/
def parseOkRows : Except String (List Row) → Option (List Row)
  | .error _ => none
  | .ok rows => some rows

/-! ## The `execute` flow after parsing (lines 261-318) -/

structure ValidationSummary where
  totalRows : Nat
  validRows : Nat
  sampleUrls : List String
deriving DecidableEq, Repr

/-- Job-level outcome of `execute` for the `submit` operation, given the
already-parsed rows. -/
inductive ExecuteOutcome
  | jobError (msg : String)
  | validation (v : ValidationSummary)
  | submitted (summary : BulkSubmitSummary) (results : List ProcessedRow)
deriving DecidableEq, Repr

/-- The `execute` flow after `parseCsvData` (lines 266-318): empty row list
is a job-level error; `validateOnly` short-circuits to the validation
payload (`csvRows.slice(0, 3).map((row, index) => buildEloquaUrl(siteId,
elqFormName, row, index + 1))`) without touching the transport; otherwise
the orchestrator runs and the summary is computed. -/
def executeSubmit (csvRows : List Row) (siteId elqFormName : String)
    (requestTimeout delayBetweenRequests maxConcurrentRequests : Nat)
    (validateOnly : Bool) (behavior : Nat → FetchBehavior) : ExecuteOutcome :=
  let _ := delayBetweenRequests
  if csvRows.length = 0 then .jobError "No valid data rows found in CSV"
  else if validateOnly then
    .validation
      { totalRows := csvRows.length
        validRows := csvRows.length
        sampleUrls := (csvRows.take 3).enum.map
          (fun p => buildEloquaUrl siteId elqFormName p.2 (p.1 + 1)) }
  else
    let buf := runBulkBuf csvRows siteId elqFormName requestTimeout behavior
      maxConcurrentRequests (fun l => l)
    let results := (List.range csvRows.length).filterMap buf
    .submitted (calculateSummary results) results

/-- Sample outcome list for exercising the aggregator: 7 successes and 3
failures, 10 ms of processing time each. -/
def c7SampleResults : List ProcessedRow :=
  List.replicate 7
    { rowNumber := 1, success := true, statusCode := none, processingTime := 10,
      url := none, parametersCount := 0, responseSize := none, error := none, data := none } ++
  List.replicate 3
    { rowNumber := 1, success := false, statusCode := none, processingTime := 10,
      url := none, parametersCount := 0, responseSize := none, error := none, data := none }

/-- Five sample parsed rows for exercising the dry-run branch. -/
def c9SampleRows : List Row :=
  [[("a", "1")], [("a", "2")], [("a", "3")], [("a", "4")], [("a", "5")]]

/-! ## Helper lemmas -/

/-- `Math.round` of an exact integer is that integer. -/
theorem jsRound_intCast (k : ℤ) : jsRound (k : ℚ) = k := by
  have hfloor : ⌊(1 / 2 : ℚ)⌋ = 0 := by
    rw [Int.floor_eq_iff]
    norm_num
  unfold jsRound
  rw [add_comm, Int.floor_add_int, hfloor, zero_add]

/-- `Math.round 0 = 0`. -/
theorem jsRound_zero : jsRound 0 = 0 := by
  have h := jsRound_intCast 0
  simpa using h

/-- Every branch of `processRow` copies the row number and the row data
into the outcome. -/
theorem processRow_rowNumber_data (rowData : Row) (siteId elqFormName : String)
    (rn t : Nat) (b : FetchBehavior) :
    (processRow rowData siteId elqFormName rn t b).rowNumber = rn ∧
    (processRow rowData siteId elqFormName rn t b).data = some rowData := by
  cases hfa : fetchWithAbort b t <;> simp [processRow, hfa]

/-- The site-id substitution in the base URL, in closed form. -/
theorem jsReplaceOnce_base_url (siteId : String) :
    jsReplaceOnce ELOQUA_BASE_URL "{siteId}" siteId =
      "https://s" ++ siteId ++ ".t.eloqua.com/e/f2" := rfl

/-- The URL built for a row, in closed form: base URL with the site id
substituted, then the two control parameters followed by all row pairs as
the query string. -/
theorem buildEloquaUrl_eq (siteId elqFormName : String) (rowData : Row) (rn : Nat) :
    buildEloquaUrl siteId elqFormName rowData rn =
      "https://s" ++ siteId ++ ".t.eloqua.com/e/f2?" ++
        urlSearchParamsToString ([("elqFormName", elqFormName), ("elqSiteID", siteId)] ++ rowData) := by
  apply String.ext
  simp only [buildEloquaUrl, jsReplaceOnce_base_url, String.data_append, List.append_assoc]
  rfl

/-! ## C3: transport completion implies success, status recorded verbatim -/

/-- C3: for every row submission whose HTTP POST completes without
transport error (duration within the abort timer), the outcome has
`success = true` and records the remote status code verbatim in
`statusCode`, whatever its value; and `success = false` arises only when
the wrapped fetch produced a transport-layer error. -/
theorem claim_c3_http_completion_success (rowData : Row) (siteId elqFormName : String)
    (rn timeout : Nat) :
    (∀ dur status body, dur ≤ timeout * 1000 →
      (processRow rowData siteId elqFormName rn timeout
        (FetchBehavior.completes dur status body)).success = true ∧
      (processRow rowData siteId elqFormName rn timeout
        (FetchBehavior.completes dur status body)).statusCode = some status) ∧
    (∀ b : FetchBehavior,
      (processRow rowData siteId elqFormName rn timeout b).success = false →
      ∃ name msg elapsed, fetchWithAbort b timeout = FetchOutcome.err name msg elapsed) := by
  constructor
  · intro dur status body h
    have hlt : ¬ timeout * 1000 < dur := Nat.not_lt.mpr h
    constructor <;> simp [processRow, fetchWithAbort, hlt]
  · intro b hfail
    cases hb : fetchWithAbort b timeout with
    | ok status body elapsed => simp [processRow, hb] at hfail
    | err name msg elapsed => exact ⟨name, msg, elapsed, rfl⟩

/-- Witness for C3 at a concrete 404 completion. -/
theorem claim_c3_http_completion_success_witness :
    (55 ≤ 10 * 1000) ∧
    (processRow [("a", "1")] "100" "F" 1 10
      (FetchBehavior.completes 55 404 "nope")).success = true ∧
    (processRow [("a", "1")] "100" "F" 1 10
      (FetchBehavior.completes 55 404 "nope")).statusCode = some 404 :=
  ⟨by decide,
   ((claim_c3_http_completion_success [("a", "1")] "100" "F" 1 10).1 55 404 "nope" (by decide)).1,
   ((claim_c3_http_completion_success [("a", "1")] "100" "F" 1 10).1 55 404 "nope" (by decide)).2⟩

/-! ## C5: the row unit is total and captures timeouts -/

/-- C5: `processRow` is a total function into outcomes (never throws): every
behaviour of the transport yields an outcome carrying the row number and
the original row data; and when the request outlives `timeout` seconds the
outcome has `success = false`, a timeout error message, and `statusCode`
unset. -/
theorem claim_c5_row_unit_total_timeout (rowData : Row) (siteId elqFormName : String)
    (rn timeout : Nat) (b : FetchBehavior) :
    ((processRow rowData siteId elqFormName rn timeout b).rowNumber = rn ∧
     (processRow rowData siteId elqFormName rn timeout b).data = some rowData) ∧
    (timesOut b timeout = true →
      (processRow rowData siteId elqFormName rn timeout b).success = false ∧
      (processRow rowData siteId elqFormName rn timeout b).error = some "Request timeout" ∧
      (processRow rowData siteId elqFormName rn timeout b).statusCode = none) := by
  refine ⟨processRow_rowNumber_data rowData siteId elqFormName rn timeout b, ?_⟩
  intro ht
  cases b with
  | completes dur status body =>
    simp only [timesOut, decide_eq_true_eq] at ht
    refine ⟨?_, ?_, ?_⟩ <;> simp [processRow, fetchWithAbort, ht]
  | failsWith dur name msg =>
    simp only [timesOut, decide_eq_true_eq] at ht
    refine ⟨?_, ?_, ?_⟩ <;> simp [processRow, fetchWithAbort, ht]
  | neverResolves =>
    refine ⟨?_, ?_, ?_⟩ <;> simp [processRow, fetchWithAbort]

/-- Witness for C5: a 1-second timeout against a transport that never
resolves. -/
theorem claim_c5_row_unit_total_timeout_witness :
    timesOut FetchBehavior.neverResolves 1 = true ∧
    (processRow [("a", "1")] "100" "F" 1 1 FetchBehavior.neverResolves).success = false ∧
    (processRow [("a", "1")] "100" "F" 1 1 FetchBehavior.neverResolves).error =
      some "Request timeout" ∧
    (processRow [("a", "1")] "100" "F" 1 1 FetchBehavior.neverResolves).statusCode = none :=
  ⟨rfl,
   ((claim_c5_row_unit_total_timeout [("a", "1")] "100" "F" 1 1 FetchBehavior.neverResolves).2 rfl).1,
   ((claim_c5_row_unit_total_timeout [("a", "1")] "100" "F" 1 1 FetchBehavior.neverResolves).2 rfl).2.1,
   ((claim_c5_row_unit_total_timeout [("a", "1")] "100" "F" 1 1 FetchBehavior.neverResolves).2 rfl).2.2⟩

/-! ## C6: where the control parameters actually travel -/

/-- C6 counterexample: for the row `[("email", "x")]` the POST body
(`new URLSearchParams(rowData)`) contains only the row's pair; neither
`elqFormName` nor `elqSiteID` occurs among the body parameters, refuting
"the URL-encoded body contains the two control parameters". -/
theorem claim_c6_counterexample :
    (buildRequest [("email", "x")] "100" "F" 1).bodyParams = [("email", "x")] ∧
    ((buildRequest [("email", "x")] "100" "F" 1).bodyParams.any
      (fun p => p.1 == "elqFormName")) = false ∧
    ((buildRequest [("email", "x")] "100" "F" 1).bodyParams.any
      (fun p => p.1 == "elqSiteID")) = false := by
  refine ⟨rfl, by decide, by decide⟩

/-- C6 (amended): each row issues a single POST to
`https://s{siteId}.t.eloqua.com/e/f2` with Content-Type
`application/x-www-form-urlencoded`; the two control parameters
`elqFormName` and `elqSiteID` together with every row pair are URL-encoded
into the request URL's query string, while the body carries exactly the
row's pairs (not the control parameters). -/
theorem claim_c6_request_shape (rowData : Row) (siteId elqFormName : String) (rn : Nat) :
    (buildRequest rowData siteId elqFormName rn).method = "POST" ∧
    (buildRequest rowData siteId elqFormName rn).contentType =
      "application/x-www-form-urlencoded" ∧
    (buildRequest rowData siteId elqFormName rn).url =
      "https://s" ++ siteId ++ ".t.eloqua.com/e/f2?" ++
        urlSearchParamsToString ([("elqFormName", elqFormName), ("elqSiteID", siteId)] ++ rowData) ∧
    (buildRequest rowData siteId elqFormName rn).bodyParams = rowData :=
  ⟨rfl, rfl, buildEloquaUrl_eq siteId elqFormName rowData rn, rfl⟩

/-! ## C7: summary arithmetic -/

/-- C7: for every non-empty outcome list the aggregator computes
`successRate = round(successes / totalRows * 1000) / 10` and
`averageProcessingTimeMs = round(sum(processingTimeMs) / totalRows * 10) / 10`
(the source's `(s / n) * 100 * 10` equals the claim's `s / n * 1000`). -/
theorem claim_c7_summary_formulas (results : List ProcessedRow) (_h : results ≠ []) :
    (calculateSummary results).successRate =
      (jsRound (((results.filter (fun r => r.success)).length : ℚ) /
        (results.length : ℚ) * 1000) : ℚ) / 10 ∧
    (calculateSummary results).averageProcessingTime =
      (jsRound ((((results.map (fun r => r.processingTime)).sum : ℕ) : ℚ) /
        (results.length : ℚ) * 10) : ℚ) / 10 := by
  constructor
  · have harg : (((results.filter (fun r => r.success)).length : ℚ) /
        (results.length : ℚ)) * 100 * 10 =
        (((results.filter (fun r => r.success)).length : ℚ) / (results.length : ℚ)) * 1000 := by
      ring
    simp only [calculateSummary, harg]
  · rfl

/-- Witness for C7: 7 successes and 3 failures out of 10 give a 70.0%
success rate. -/
theorem claim_c7_summary_formulas_witness :
    c7SampleResults ≠ [] ∧ (calculateSummary c7SampleResults).successRate = 70 := by
  constructor
  · decide
  · rw [(claim_c7_summary_formulas c7SampleResults (by decide)).1,
      show (c7SampleResults.filter (fun r => r.success)).length = 7 from by decide,
      show c7SampleResults.length = 10 from by decide]
    have h700 : ((7 : ℕ) : ℚ) / ((10 : ℕ) : ℚ) * 1000 = ((700 : ℤ) : ℚ) := by norm_num
    rw [h700, jsRound_intCast]
    norm_num

/-! ## C8: no empty-results guard exists -/

/-- C8 counterexample: `calculateSummary []` returns a summary object
rather than failing with an `EmptyResultsError`; the function has no
emptiness guard (in JS the `0/0` rate and average fields are `NaN`, here
the `ℚ` convention `0/0 = 0` applies; in neither semantics is anything
thrown). -/
theorem claim_c8_counterexample :
    calculateSummary [] =
      { totalRows := 0, successfulRequests := 0, failedRequests := 0, successRate := 0,
        totalProcessingTime := 0, averageProcessingTime := 0, averageResponseTime := 0 } := by
  simp [calculateSummary, jsRound_zero]

/-- C8 (amended): the aggregator performs no empty-input check and returns
a `BulkSubmitSummary` for `[]` (with `NaN` rate/average in JS); it is never
invoked on an empty list by the job flow, because `execute` returns the
job-level error `"No valid data rows found in CSV"` before any submission
or aggregation when zero rows survive parsing. -/
theorem claim_c8_no_empty_guard (siteId elqFormName : String)
    (t d m : Nat) (v : Bool) (behavior : Nat → FetchBehavior) :
    executeSubmit [] siteId elqFormName t d m v behavior =
      ExecuteOutcome.jobError "No valid data rows found in CSV" ∧
    (calculateSummary []).totalRows = 0 ∧
    (calculateSummary []).successRate = 0 := by
  refine ⟨rfl, rfl, ?_⟩
  simp [calculateSummary, jsRound_zero]

/-! ## C10: the CSV line parser is total and quote-tolerant -/

/-- The field loop always returns at least one field (the final
accumulator is pushed unconditionally). -/
theorem parseCsvLineGo_length (l cur : List Char) (inQ : Bool) :
    1 ≤ (parseCsvLineGo l cur inQ).length := by
  induction l, cur, inQ using parseCsvLineGo.induct <;>
    simp_all [parseCsvLineGo]

/-- With the quote flag open and no further quote in the input, the whole
remainder (commas included) accumulates into one final field. -/
theorem parseCsvLineGo_open_quote (l : List Char) :
    ∀ cur : List Char, '\"' ∉ l → parseCsvLineGo l cur true = [String.mk (cur ++ l)] := by
  induction l with
  | nil => intro cur _; simp [parseCsvLineGo]
  | cons c rest ih =>
    intro cur hmem
    have hc : ¬ c = '\"' := fun hc => hmem (hc ▸ List.mem_cons_self c rest)
    have hrest : '\"' ∉ rest := fun hr => hmem (List.mem_cons_of_mem c hr)
    rw [show parseCsvLineGo (c :: rest) cur true = parseCsvLineGo rest (cur ++ [c]) true by
      simp [parseCsvLineGo, hc]]
    rw [ih (cur ++ [c]) hrest]
    simp

/-- C10: `parseCsvLine` is total and tolerant of malformed quoting: every
input yields at least one field, and a field opened by an unterminated
double quote silently extends to the end of the line, with commas inside
the open quote never splitting fields. -/
theorem claim_c10_parse_line_total (s : String) :
    1 ≤ (parseCsvLine s).length ∧
    ('\"' ∉ s.data → parseCsvLine ("\"" ++ s) = [s]) := by
  constructor
  · exact parseCsvLineGo_length s.data [] false
  · intro h
    unfold parseCsvLine
    rw [show ("\"" ++ s).data = '\"' :: s.data from by simp [String.data_append]]
    rw [show parseCsvLineGo ('\"' :: s.data) [] false = parseCsvLineGo s.data [] true from by
      simp [parseCsvLineGo]]
    rw [parseCsvLineGo_open_quote s.data [] h]
    rfl

/-- Witness for C10 at the line `"a,b` (unterminated quote, internal
comma). -/
theorem claim_c10_parse_line_total_witness :
    1 ≤ (parseCsvLine "a,b").length ∧
    '\"' ∉ "a,b".data ∧
    parseCsvLine ("\"" ++ "a,b") = ["a,b"] :=
  ⟨(claim_c10_parse_line_total "a,b").1, by decide,
   (claim_c10_parse_line_total "a,b").2 (by decide)⟩

/-! ## C4: no intra-batch stagger exists -/

/-- Past the end of the rows the trace loop emits nothing. -/
theorem bulkTraceGo_of_le {n : Nat} (size delay fuel i : Nat) (h : n ≤ i) :
    bulkTraceGo n size delay fuel i = [] := by
  cases fuel <;> simp [bulkTraceGo, Nat.not_lt.mpr h]

/-- Past the end of the rows the batching loop emits nothing. -/
theorem bulkBatchesGo_of_le {n : Nat} (size fuel i : Nat) (h : n ≤ i) :
    bulkBatchesGo n size fuel i = [] := by
  cases fuel <;> simp [bulkBatchesGo, Nat.not_lt.mpr h]

/-- The source loop's trace refines the spec-side description: submissions
of one batch run consecutively, with a single inter-batch delay between
consecutive batches (when the delay is positive), and nothing else. -/
theorem bulkTraceGo_eq_interBatch (n size delay : Nat) (hs : 0 < size) :
    ∀ fuel i, n ≤ i + fuel → bulkTraceGo n size delay fuel i =
      interBatchTrace delay (bulkBatchesGo n size fuel i) := by
  intro fuel
  induction fuel with
  | zero => intro i h; simp [bulkTraceGo, bulkBatchesGo, interBatchTrace]
  | succ f ih =>
    intro i h
    by_cases hi : i < n
    · by_cases hmore : i + size < n
      · obtain ⟨f', rfl⟩ : ∃ f', f = f' + 1 := ⟨f - 1, by omega⟩
        have hcons : bulkBatchesGo n size (f' + 1) (i + size) =
            List.range' (i + size) (min size (n - (i + size))) ::
              bulkBatchesGo n size f' (i + size + size) := by
          simp [bulkBatchesGo, hmore]
        rw [show bulkTraceGo n size delay (f' + 1 + 1) i =
            (List.range' i (min size (n - i))).map SchedStep.submit
              ++ (if 0 < delay ∧ i + size < n then [SchedStep.delayMs delay] else [])
              ++ bulkTraceGo n size delay (f' + 1) (i + size) from by
          simp [bulkTraceGo, hi]]
        rw [ih (i + size) (by omega)]
        rw [show bulkBatchesGo n size (f' + 1 + 1) i =
            List.range' i (min size (n - i)) :: bulkBatchesGo n size (f' + 1) (i + size) from by
          simp [bulkBatchesGo, hi]]
        rw [hcons]
        simp only [interBatchTrace, hmore, and_true]
      · have hrest : bulkBatchesGo n size f (i + size) = [] := bulkBatchesGo_of_le _ _ _ (by omega)
        have htail : bulkTraceGo n size delay f (i + size) = [] :=
          bulkTraceGo_of_le _ _ _ _ (by omega)
        rw [show bulkTraceGo n size delay (f + 1) i =
            (List.range' i (min size (n - i))).map SchedStep.submit
              ++ (if 0 < delay ∧ i + size < n then [SchedStep.delayMs delay] else [])
              ++ bulkTraceGo n size delay f (i + size) from by
          simp [bulkTraceGo, hi]]
        rw [show bulkBatchesGo n size (f + 1) i =
            List.range' i (min size (n - i)) :: bulkBatchesGo n size f (i + size) from by
          simp [bulkBatchesGo, hi]]
        rw [hrest, htail]
        simp [interBatchTrace, hmore]
    · simp [bulkTraceGo, bulkBatchesGo, hi, interBatchTrace]

/-- C4 counterexample: with 2 rows in a single batch of size 2 and a
configured delay of 100 ms, the trace is two back-to-back submissions with
no delay step at all, so the second row of the batch is not preceded by a
delay step -- the claimed intra-batch stagger does not exist. -/
theorem claim_c4_counterexample :
    bulkTrace 2 2 100 = [SchedStep.submit 0, SchedStep.submit 1] ∧
    staggerClaimHolds 2 2 100 = false :=
  ⟨by decide, by decide⟩

/-- C4 (amended): within a batch all submissions are scheduled
consecutively with no delay step between them; the configured
`delayBetweenRequests` produces exactly one delay step between consecutive
batches (when positive), and that inter-batch delay is the only delay in
the schedule. -/
theorem claim_c4_no_intra_batch_delay (n size delay : Nat) (hs : 0 < size) :
    bulkTrace n size delay = interBatchTrace delay (bulkBatches n size) :=
  bulkTraceGo_eq_interBatch n size delay hs n 0 (by omega)

/-- Witness for C4 (amended) at 5 rows in batches of 2 with a 100 ms
delay. -/
theorem claim_c4_no_intra_batch_delay_witness :
    (0 < 2) ∧ bulkTrace 5 2 100 = interBatchTrace 100 (bulkBatches 5 2) :=
  ⟨by decide, claim_c4_no_intra_batch_delay 5 2 100 (by decide)⟩

/-! ## C9: the dry-run branch -/

/-- C9 counterexample: zero surviving rows is a successful parse
(`"a,b\n,"` parses to zero rows), yet running with `validateOnly = true`
returns the job-level error `"No valid data rows found in CSV"` instead of
a validation payload with `totalRows = validRows = 0`. -/
theorem claim_c9_counterexample :
    parseOkRows (parseCsvData "a,b\n,") = some [] ∧
    executeSubmit [] "100" "F" 10 100 5 true (fun _ => FetchBehavior.neverResolves) =
      ExecuteOutcome.jobError "No valid data rows found in CSV" :=
  ⟨by decide, rfl⟩

/-- C9 (amended): for every input of `n ≥ 1` successfully parsed rows,
running with `validateOnly = true` returns a validation payload -- whose
value is independent of the transport oracle, i.e. zero network I/O -- with
`totalRows = validRows = n` and `sampleUrls` the constructed URLs of the
first `min 3 n` rows in input order.  (With `n = 0` the job fails with a
top-level error before reaching this branch.) -/
theorem claim_c9_validate_only (csvRows : List Row) (siteId elqFormName : String)
    (t d m : Nat) (b1 b2 : Nat → FetchBehavior) (h : 0 < csvRows.length) :
    executeSubmit csvRows siteId elqFormName t d m true b1 =
      executeSubmit csvRows siteId elqFormName t d m true b2 ∧
    executeSubmit csvRows siteId elqFormName t d m true b1 =
      ExecuteOutcome.validation
        { totalRows := csvRows.length
          validRows := csvRows.length
          sampleUrls := (csvRows.take 3).enum.map
            (fun p => buildEloquaUrl siteId elqFormName p.2 (p.1 + 1)) } ∧
    ((csvRows.take 3).enum.map
        (fun p => buildEloquaUrl siteId elqFormName p.2 (p.1 + 1))).length =
      min 3 csvRows.length ∧
    (∀ i, i < min 3 csvRows.length →
      ((csvRows.take 3).enum.map
          (fun p => buildEloquaUrl siteId elqFormName p.2 (p.1 + 1))).get? i =
        some (buildEloquaUrl siteId elqFormName (csvRows.getD i []) (i + 1))) := by
  have hne : ¬ csvRows.length = 0 := by omega
  refine ⟨by simp [executeSubmit, hne], by simp [executeSubmit, hne], ?_, ?_⟩
  · simp [List.length_take]
  · intro i hi
    have hi3 : i < 3 := lt_of_lt_of_le hi (min_le_left 3 csvRows.length)
    have hilen : i < csvRows.length := lt_of_lt_of_le hi (min_le_right 3 csvRows.length)
    rw [List.get?_eq_getElem?]
    simp [List.getElem?_map, List.getElem?_enum, List.getElem?_take_of_lt hi3,
      List.getElem?_eq_getElem hilen, List.getD_eq_getElem?_getD]

/-- Witness for C9 (amended) at 5 sample rows: the sample URL list has
length `min 3 5 = 3`. -/
theorem claim_c9_validate_only_witness :
    0 < c9SampleRows.length ∧
    ((c9SampleRows.take 3).enum.map
        (fun p => buildEloquaUrl "100" "F" p.2 (p.1 + 1))).length = min 3 c9SampleRows.length ∧
    min 3 c9SampleRows.length = 3 :=
  ⟨by decide,
   (claim_c9_validate_only c9SampleRows "100" "F" 10 100 5
      (fun _ => FetchBehavior.neverResolves) (fun _ => FetchBehavior.neverResolves)
      (by decide)).2.2.1,
   by decide⟩

/-! ## C2: formula-injection cells are fatal, not merely neutralized -/

/-- C2 counterexample: a CSV whose only data row has the cell
`=SUM(A1:A2)` does not parse; ingestion throws
`CSV validation failed: CSV contains potentially dangerous formulas`
instead of proceeding with a neutralized cell. -/
theorem claim_c2_counterexample :
    parseErrMsg (parseCsvData "a,b\n=SUM(A1:A2),2") =
      some "CSV validation failed: CSV contains potentially dangerous formulas" := by
  decide

/-- C2 (amended): any CSV text containing a cell whose first non-quote
character is `=`, `@`, `+` or `-` is rejected as a fatal validation error:
`validateCsvData` marks it invalid and `parseCsvData` throws, so no rows
are produced.  The validator's `sanitizedValue` does prefix the offending
cell with a neutralizing quote (subsequently HTML-escaped to `&#x27;`), as
the concrete conjunct shows, but that sanitized output is discarded because
the parse fails. -/
theorem claim_c2_fatal_rejection (csvData : String)
    (h : hasDangerousCsvCell csvData = true) :
    (validateCsvData csvData).isValid = false ∧
    parseOkRows (parseCsvData csvData) = none ∧
    (validateCsvData "a,b\n=SUM(A1:A2),2").sanitizedValue =
      some "a,b\n&#x27;=SUM(A1:A2),2" := by
  unfold hasDangerousCsvCell at h
  have hval : (validateCsvData csvData).isValid = false := by
    by_cases h0 : csvData = ""
    · simp [validateCsvData, h0]
    · by_cases h1 : (jsTrim csvData).length = 0
      · simp [validateCsvData, h0, h1]
      · simp [validateCsvData, h0, h1, h]
  refine ⟨hval, ?_, by decide⟩
  by_cases h2 : jsTrim csvData = ""
  · simp [parseCsvData, h2, parseOkRows]
  · simp [parseCsvData, h2, hval, parseOkRows]

/-- Witness for C2 (amended) at the Scenario B input. -/
theorem claim_c2_fatal_rejection_witness :
    hasDangerousCsvCell "a,b\n=SUM(A1:A2),2" = true ∧
    (validateCsvData "a,b\n=SUM(A1:A2),2").isValid = false ∧
    parseOkRows (parseCsvData "a,b\n=SUM(A1:A2),2") = none :=
  ⟨by decide,
   (claim_c2_fatal_rejection "a,b\n=SUM(A1:A2),2" (by decide)).1,
   (claim_c2_fatal_rejection "a,b\n=SUM(A1:A2),2" (by decide)).2.1⟩

/-! ## C1: the order invariant of the orchestrator -/

/-- Folding writes whose keys avoid `i` leaves the buffer unchanged at
`i`. -/
theorem foldl_writeOutcome_of_not_mem (L : List (Nat × ProcessedRow))
    (init : Nat → Option ProcessedRow) (i : Nat) (h : i ∉ L.map Prod.fst) :
    L.foldl writeOutcome init i = init i := by
  induction L generalizing init with
  | nil => rfl
  | cons hd tl ih =>
    simp only [List.map_cons, List.mem_cons] at h
    push_neg at h
    rw [List.foldl_cons, ih _ h.2]
    simp [writeOutcome, h.1]

/-- With pairwise-distinct keys, folding the writes stores each pair's
value at its key, independently of the fold order encoded in `L`. -/
theorem foldl_writeOutcome_of_mem (L : List (Nat × ProcessedRow))
    (init : Nat → Option ProcessedRow) (i : Nat) (v : ProcessedRow)
    (hnodup : (L.map Prod.fst).Nodup) (hmem : (i, v) ∈ L) :
    L.foldl writeOutcome init i = some v := by
  induction L generalizing init with
  | nil => simp at hmem
  | cons hd tl ih =>
    rw [List.map_cons, List.nodup_cons] at hnodup
    rw [List.foldl_cons]
    rcases List.mem_cons.mp hmem with heq | htl
    · have hkey : i ∉ tl.map Prod.fst := by
        have h1 := hnodup.1
        rw [← heq] at h1
        exact h1
      rw [foldl_writeOutcome_of_not_mem tl _ i hkey]
      simp [writeOutcome, ← heq]
    · exact ih _ hnodup.2 htl

/-- The batch index lists tile the original indices exactly:
flattening the batches of `[i, n)` yields `range' i (n - i)`. -/
theorem bulkBatchesGo_flatten (n size : Nat) (hs : 0 < size) :
    ∀ fuel i, n ≤ i + fuel →
      (bulkBatchesGo n size fuel i).flatten = List.range' i (n - i) := by
  intro fuel
  induction fuel with
  | zero => intro i h; simp [bulkBatchesGo, show n - i = 0 by omega]
  | succ f ih =>
    intro i h
    by_cases hi : i < n
    · rw [show bulkBatchesGo n size (f + 1) i =
          List.range' i (min size (n - i)) :: bulkBatchesGo n size f (i + size) from by
        simp [bulkBatchesGo, hi]]
      rw [List.flatten_cons, ih (i + size) (by omega)]
      by_cases hle : size ≤ n - i
      · rw [Nat.min_eq_left hle]
        have happ := List.range'_append_1 i size (n - (i + size))
        rw [happ, show n - (i + size) + size = n - i by omega]
      · rw [Nat.min_eq_right (by omega), show n - (i + size) = 0 by omega]
        simp [show n - i + 0 = n - i by omega]
    · rw [show bulkBatchesGo n size (f + 1) i = [] from by simp [bulkBatchesGo, hi]]
      simp [show n - i = 0 by omega]

/-- Applying a per-batch permutation before flattening yields a
permutation of the flattened canonical writes. -/
theorem flatten_reorder_perm (rows : List Row) (siteId elqFormName : String)
    (timeout : Nat) (behavior : Nat → FetchBehavior)
    (reorder : List (Nat × ProcessedRow) → List (Nat × ProcessedRow))
    (hre : ∀ l, List.Perm (reorder l) l) (bs : List (List Nat)) :
    List.Perm
      (bs.map (fun b => reorder (batchWrites rows siteId elqFormName timeout behavior b))).flatten
      (bs.map (fun b => batchWrites rows siteId elqFormName timeout behavior b)).flatten := by
  induction bs with
  | nil => rfl
  | cons b tl ih =>
    simp only [List.map_cons, List.flatten_cons]
    exact (hre _).append ih

/-- The buffer built batch-by-batch equals a single fold over the
flattened reordered write list. -/
theorem runBulkBuf_eq_foldl (rows : List Row) (siteId elqFormName : String)
    (timeout : Nat) (behavior : Nat → FetchBehavior) (size : Nat)
    (reorder : List (Nat × ProcessedRow) → List (Nat × ProcessedRow)) :
    runBulkBuf rows siteId elqFormName timeout behavior size reorder =
      ((bulkBatches rows.length size).map
        (fun b => reorder (batchWrites rows siteId elqFormName timeout behavior b))).flatten.foldl
        writeOutcome (fun _ => none) := by
  rw [List.foldl_flatten, List.foldl_map]
  rfl

/-- C1: for every valid input, the result buffer holds exactly one outcome
per input row, at the row's original index, with `rowNumber = i + 1` and
`data` the original row -- independently of the completion order of the
submissions within each batch (quantified by `reorder`) -- and holds
nothing beyond the input length; reading the buffer over the input indices
yields exactly `rows.length` outcomes. -/
theorem claim_c1_order_invariant (rows : List Row) (siteId elqFormName : String)
    (timeout : Nat) (behavior : Nat → FetchBehavior) (size : Nat)
    (reorder : List (Nat × ProcessedRow) → List (Nat × ProcessedRow))
    (hs : 0 < size) (hre : ∀ l, List.Perm (reorder l) l) :
    (∀ i, ∀ hi : i < rows.length,
      runBulkBuf rows siteId elqFormName timeout behavior size reorder i =
        some (outcomeAt rows siteId elqFormName timeout behavior i) ∧
      (outcomeAt rows siteId elqFormName timeout behavior i).rowNumber = i + 1 ∧
      (outcomeAt rows siteId elqFormName timeout behavior i).data =
        some (rows.get ⟨i, hi⟩)) ∧
    (∀ i, rows.length ≤ i →
      runBulkBuf rows siteId elqFormName timeout behavior size reorder i = none) ∧
    ((List.range rows.length).filterMap
        (runBulkBuf rows siteId elqFormName timeout behavior size reorder)).length =
      rows.length := by
  have hjoin : (bulkBatches rows.length size).flatten = List.range' 0 rows.length := by
    have := bulkBatchesGo_flatten rows.length size hs rows.length 0 (by omega)
    simpa [bulkBatches] using this
  have hcanon : ((bulkBatches rows.length size).map
      (fun b => batchWrites rows siteId elqFormName timeout behavior b)).flatten =
      (List.range rows.length).map
        (fun idx => (idx, outcomeAt rows siteId elqFormName timeout behavior idx)) := by
    simp only [batchWrites]
    rw [← List.map_flatten, hjoin, List.range_eq_range']
  have hperm : List.Perm ((bulkBatches rows.length size).map
      (fun b => reorder (batchWrites rows siteId elqFormName timeout behavior b))).flatten
      ((List.range rows.length).map
        (fun idx => (idx, outcomeAt rows siteId elqFormName timeout behavior idx))) := by
    rw [← hcanon]
    exact flatten_reorder_perm rows siteId elqFormName timeout behavior reorder hre _
  have hkeysperm : List.Perm (((bulkBatches rows.length size).map
      (fun b => reorder (batchWrites rows siteId elqFormName timeout behavior b))).flatten.map
        Prod.fst) (List.range rows.length) := by
    have hmapped := hperm.map Prod.fst
    rwa [List.map_map, show (Prod.fst ∘ fun idx =>
      (idx, outcomeAt rows siteId elqFormName timeout behavior idx)) = id from rfl,
      List.map_id] at hmapped
  have hkeys : (((bulkBatches rows.length size).map
      (fun b => reorder (batchWrites rows siteId elqFormName timeout behavior b))).flatten.map
        Prod.fst).Nodup :=
    hkeysperm.symm.nodup (List.nodup_range rows.length)
  have hbuf : ∀ i, i < rows.length →
      runBulkBuf rows siteId elqFormName timeout behavior size reorder i =
        some (outcomeAt rows siteId elqFormName timeout behavior i) := by
    intro i hi
    rw [runBulkBuf_eq_foldl]
    exact foldl_writeOutcome_of_mem _ _ _ _ hkeys
      (hperm.mem_iff.mpr (List.mem_map_of_mem _ (List.mem_range.mpr hi)))
  refine ⟨?_, ?_, ?_⟩
  · intro i hi
    refine ⟨hbuf i hi, (processRow_rowNumber_data _ _ _ _ _ _).1, ?_⟩
    have hgd : rows.getD i [] = rows.get ⟨i, hi⟩ := by
      rw [List.getD_eq_getElem _ _ hi, List.get_eq_getElem]
    simp only [outcomeAt]
    rw [← hgd]
    exact (processRow_rowNumber_data _ _ _ _ _ _).2
  · intro i hi
    rw [runBulkBuf_eq_foldl]
    rw [foldl_writeOutcome_of_not_mem]
    intro hmem
    have := hkeysperm.mem_iff.mp hmem
    rw [List.mem_range] at this
    omega
  · have hall : ∀ a ∈ List.range rows.length,
        (runBulkBuf rows siteId elqFormName timeout behavior size reorder a).isSome := by
      intro a ha
      rw [hbuf a (List.mem_range.mp ha)]
      rfl
    calc ((List.range rows.length).filterMap
            (runBulkBuf rows siteId elqFormName timeout behavior size reorder)).length
        = (List.range rows.length).length := List.filterMap_length_eq_length.mpr hall
      _ = rows.length := List.length_range rows.length

/-- Witness for C1: three rows, batch size 2, a transport that fails row 1
and completes rows 0 and 2, and a completion order that reverses each
batch; the buffer still holds row 2's outcome at index 2. -/
theorem claim_c1_order_invariant_witness :
    (0 < 2) ∧ (2 < ([[("a", "1")], [("b", "2")], [("c", "3")]] : List Row).length) ∧
    runBulkBuf [[("a", "1")], [("b", "2")], [("c", "3")]] "100" "F" 10
      (fun i => if i = 1 then FetchBehavior.failsWith 5 "TypeError" "Failed to fetch"
        else FetchBehavior.completes 5 200 "ok") 2 List.reverse 2 =
      some (outcomeAt [[("a", "1")], [("b", "2")], [("c", "3")]] "100" "F" 10
        (fun i => if i = 1 then FetchBehavior.failsWith 5 "TypeError" "Failed to fetch"
          else FetchBehavior.completes 5 200 "ok") 2) :=
  ⟨by decide, by decide,
   ((claim_c1_order_invariant [[("a", "1")], [("b", "2")], [("c", "3")]] "100" "F" 10
      (fun i => if i = 1 then FetchBehavior.failsWith 5 "TypeError" "Failed to fetch"
        else FetchBehavior.completes 5 200 "ok") 2 List.reverse (by decide)
      (fun l => l.reverse_perm)).1 2 (by decide)).1⟩
